import Mathlib

/-!
# Correlation bridge of connector-orm-golang (`lib.go`)

A shallow embedding of `lib.go`: the session state `StatefulORM`, `Connect`, the
wildcard delivery handler installed by `Connect`, the call executor `mqttExec`
and the four operations `Create`, `Read`, `Update`, `Delete`.

The code of `lib.go` is sequential glue around four libraries.  Their results
enter the model as follows.

* `uuid.New`, `time.Now`, `make(chan []byte)`, the error results of
  `MQTTSubscribeSync` and `MQTTPublishMsg`, and what the `select` receives from
  the channel are inputs of a call (`CallEnv`).
* `json.Marshal` and `json.Unmarshal` are a `Codec` argument.
* `wimark.ParseResponseTopic` is a function argument.
* `go-cache` (`New`, `Set`, `Get`, the janitor's `DeleteExpired`) and
  `time.Tick` are defined below after their library behaviour.
* A call that blocks forever has the result `none`.
-/

namespace Orm

/-! ## Values -/

/-- Go `[]byte`. -/
abbrev Bytes := List Nat

/-- Go `time.Duration` and `UnixNano` instants: `int64` nanoseconds. -/
abbrev Duration := Int

/-- The constant `time.Minute`, in nanoseconds. -/
def Minute : Duration := 60000000000

/-- Two's complement reduction of an integer to the range of `int64`. -/
def wrapInt64 (x : Int) : Int := (x + 2 ^ 63) % 2 ^ 64 - 2 ^ 63

/-- A `wimark.Module` value; `lib.go` names only `ModuleDB`. -/
structure Module where
  name : String
deriving DecidableEq, Repr

/-- The constant `wimark.ModuleDB`. -/
def ModuleDB : Module := ⟨"DB"⟩

/-- The constant `wimark.MQTT_ANY_WILDCARD`: the single-level wildcard of MQTT. -/
def MQTT_ANY_WILDCARD : String := "+"

/-- The operation kinds of `wimark.Operation` that `lib.go` uses. -/
inductive Operation where
  | OperationCreate
  | OperationRead
  | OperationUpdate
  | OperationDelete
deriving DecidableEq, Repr

/-- The struct `MQTTData` (lines 14 to 19). -/
structure MQTTData where
  BrokerAddr : String
  DbID : String
  SenderModule : Module
  SenderID : String
deriving DecidableEq, Repr

/-- The struct `wimark.RequestTopic`, with the fields set on lines 73 to 80. -/
structure RequestTopic where
  SenderModule : Module
  SenderID : String
  ReceiverModule : Module
  ReceiverID : String
  RequestID : String
  Operation : Operation
deriving DecidableEq, Repr

/-- The struct `wimark.ResponseTopic`, with the fields set on lines 41 to 47. -/
structure ResponseTopic where
  SenderModule : Module
  SenderID : String
  ReceiverModule : Module
  ReceiverID : String
  RequestID : String
deriving DecidableEq, Repr

/-- Modelled from the spec: `RequestTopic.ToResponse` of libwimark, which is not
part of `lib.go`.  Section 4.1: the response topic is derived "by swapping
sender/receiver roles and keeping requestId". -/
def RequestTopic.ToResponse (t : RequestTopic) : ResponseTopic :=
  { SenderModule := t.ReceiverModule
    SenderID := t.ReceiverID
    ReceiverModule := t.SenderModule
    ReceiverID := t.SenderID
    RequestID := t.RequestID }

/-- The error codes of `wimark.ModelError` that `lib.go` produces. -/
inductive WimarkErrorCode where
  | WimarkErrorCodeMqtt
  | WimarkErrorCodeJson
  | WimarkErrorCodeDB
deriving DecidableEq, Repr

/-- The struct `wimark.ModelError`; the Go field `Type` is written `Type_`. -/
structure ModelError where
  Type_ : WimarkErrorCode
  Description : String
deriving DecidableEq, Repr

/-- A response struct `wimark.DBResponseC`, `R`, `U` or `D`: the field `Errors`
that `lib.go` assigns, and every other field collected in `payload`. -/
structure DBResponse (P : Type) where
  payload : P
  Errors : List ModelError
deriving DecidableEq, Repr

/-- The zero value of a response struct, as `var data wimark.DBResponseC` gives. -/
def DBResponse.zero {P : Type} [Inhabited P] : DBResponse P :=
  { payload := default, Errors := [] }

/-- An inbound `mqtt.Message`: what `msg.Topic()` and `msg.Payload()` return. -/
structure Message where
  Topic : String
  Payload : Bytes
deriving DecidableEq, Repr

/-! ## Channels and callbacks -/

/-- Identity of a Go channel. -/
abbrev ChanId := Nat

/-- A channel created by `make`: its capacity, the values buffered in it and the
values of senders blocked on it. -/
structure Chan where
  cap : Nat
  buf : List Bytes
  blocked : List Bytes
deriving DecidableEq, Repr

/-- The channel of line 82, `make(chan []byte)`: no capacity argument. -/
def makeChan : Chan := { cap := 0, buf := [], blocked := [] }

/-- A send `c <- v`: buffered if there is room, otherwise the sender blocks. -/
def Chan.send (c : Chan) (v : Bytes) : Chan :=
  if c.buf.length < c.cap then { c with buf := c.buf ++ [v] }
  else { c with blocked := c.blocked ++ [v] }

/-- A receive `<-c` that finds a value: the oldest buffered value (the oldest
blocked sender then moves into the buffer), or else the oldest blocked sender. -/
def Chan.recv (c : Chan) : Option (Bytes × Chan) :=
  match c.buf, c.blocked with
  | v :: rest, [] => some (v, { c with buf := rest })
  | v :: rest, w :: ws => some (v, { c with buf := rest ++ [w], blocked := ws })
  | [], w :: ws => some (w, { c with blocked := ws })
  | [], [] => none

/-- The closure `func(data []byte) { data_chan <- data }` of line 84, identified
by the channel it captures. -/
structure Callback where
  chan : ChanId
deriving DecidableEq, Repr

/-- A write attempt `chan <- data` made by a delivery callback. -/
structure ChanWrite where
  chan : ChanId
  data : Bytes
deriving DecidableEq, Repr

/-- Calling a stored callback with a payload: one write to its channel. -/
def Callback.call (cb : Callback) (data : Bytes) : ChanWrite :=
  { chan := cb.chan, data := data }

/-! ## The correlation table (`go-cache`) -/

/-- An `Item` of go-cache: the stored object and its expiration instant
(`0`: never expires). -/
structure Item where
  Object : Callback
  Expiration : Int
deriving DecidableEq, Repr

/-- The `cache.Cache` of go-cache.  The Go map `items` is a list of bindings. -/
structure Cache where
  defaultExpiration : Duration
  cleanupInterval : Duration
  items : List (String × Item)
deriving DecidableEq, Repr

/-- Library `cache.New(defaultExpiration, cleanupInterval)`: a default of `0`
becomes `-1` (no expiration); the table starts empty. -/
def Cache.New (defaultExpiration cleanupInterval : Duration) : Cache :=
  { defaultExpiration := if defaultExpiration = 0 then -1 else defaultExpiration
    cleanupInterval := cleanupInterval
    items := [] }

/-- Library `Item.Expired` at the instant `now`. -/
def Item.Expired (it : Item) (now : Int) : Bool :=
  decide (it.Expiration > 0) && decide (now > it.Expiration)

/-- Library `Cache.Set(k, x, d)` at the instant `now`: a `d` of `0` stands for the
default expiration, a positive `d` gives the expiration `now + d` as `UnixNano`,
and the binding of `k` is replaced. -/
def Cache.Set (c : Cache) (now : Int) (k : String) (x : Callback) (d : Duration) : Cache :=
  let d1 := if d = 0 then c.defaultExpiration else d
  let e := if d1 > 0 then wrapInt64 (now + d1) else 0
  { c with items := (k, { Object := x, Expiration := e }) :: c.items.filter (fun p => p.1 != k) }

/-- Library `Cache.Get(k)` at the instant `now`: the object bound to `k`, unless
there is none or it has expired.  The table is not changed. -/
def Cache.Get (c : Cache) (now : Int) (k : String) : Option Callback :=
  match c.items.find? (fun p => p.1 == k) with
  | none => none
  | some (_, it) => if it.Expired now then none else some it.Object

/-- Library `Cache.DeleteExpired` at the instant `now`: every expired binding is
removed. -/
def Cache.DeleteExpired (c : Cache) (now : Int) : Cache :=
  { c with items := c.items.filter (fun p => !p.2.Expired now) }

/-- A run of the janitor of go-cache at the instant `now`.  `cache.New` starts the
janitor, which calls `DeleteExpired` every `cleanupInterval`, only when that
interval is positive. -/
def Cache.janitorRun (c : Cache) (now : Int) : Cache :=
  if c.cleanupInterval > 0 then c.DeleteExpired now else c

/-- Number of bindings the table holds for the key `k`. -/
def Cache.entries (c : Cache) (k : String) : Nat :=
  (c.items.filter (fun p => p.1 == k)).length

/-! ## The session -/

/-- The two delivery handlers `lib.go` passes to `MQTTSubscribeSync`: the
wildcard handler of lines 48 to 56, and the handler of line 85,
`func(msg mqtt.Message) { data_chan <- msg.Payload() }`. -/
inductive Handler where
  | wildcard
  | forward (data_chan : ChanId)
deriving DecidableEq, Repr

/-- A subscription held by the broker client: topic filter and handler. -/
structure Subscription where
  topic : ResponseTopic
  handler : Handler
deriving DecidableEq, Repr

/-- The `mqtt.Client` as `lib.go` uses it: the subscriptions it holds. -/
structure Broker where
  subs : List Subscription
deriving DecidableEq, Repr

/-- A successful `MQTTSubscribeSync(broker, [topic], handler)`. -/
def Broker.subscribe (b : Broker) (topic : ResponseTopic) (h : Handler) : Broker :=
  { subs := b.subs.filter (fun s => s.topic != topic) ++ [{ topic := topic, handler := h }] }

/-- The call `MQTTMustUnsubscribeSync(broker, [topic])`. -/
def Broker.unsubscribe (b : Broker) (topic : ResponseTopic) : Broker :=
  { subs := b.subs.filter (fun s => s.topic != topic) }

/-- The struct `StatefulORM` (lines 21 to 28); the logger is left out, no
function of `lib.go` reads it. -/
structure StatefulORM where
  connected : Bool
  broker : Broker
  mqtt_info : MQTTData
  cache : Cache
  timeout : Duration
deriving DecidableEq, Repr

/-- The topic of the wildcard subscription, lines 41 to 47. -/
def wildcardTopic (mqtt_info : MQTTData) : ResponseTopic :=
  { SenderModule := ModuleDB
    SenderID := mqtt_info.DbID
    ReceiverModule := mqtt_info.SenderModule
    ReceiverID := mqtt_info.SenderID
    RequestID := MQTT_ANY_WILDCARD }

/-- The method `Connect` (lines 30 to 69).  `connectErr` and `subscribeErr` are
the errors of `MQTTConnectSync` and `MQTTSubscribeSync`; the result is the
session afterwards and the returned error. -/
def Connect (self : StatefulORM) (connectErr subscribeErr : Option String)
    (mqtt_info : MQTTData) (request_timeout : Duration) : StatefulORM × Option String :=
  match connectErr with
  | some err => (self, some err)
  | none =>
    match subscribeErr with
    | some err => (self, some err)
    | none =>
      ({ mqtt_info := mqtt_info
         broker := { subs := [{ topic := wildcardTopic mqtt_info, handler := Handler.wildcard }] }
         timeout := request_timeout
         cache := Cache.New request_timeout (wrapInt64 (request_timeout + 1 * Minute))
         connected := true }, none)

/-- The delivery handler of lines 48 to 56, run at the instant `now` on the
message `msg`: the callback invocations it makes.  It reads the table only. -/
def wildcardHandler (ParseResponseTopic : String → Option ResponseTopic)
    (self : StatefulORM) (now : Int) (msg : Message) : List (Callback × Bytes) :=
  match ParseResponseTopic msg.Topic with
  | none => []
  | some t =>
    match self.cache.Get now t.RequestID with
    | some cb => [(cb, msg.Payload)]
    | none => []

/-! ## The call executor -/

/-- What one call of `mqttExec` obtains from outside `lib.go`. -/
structure CallEnv where
  /-- Result of `uuid.New().String()`. -/
  reqid : String
  /-- Instant `time.Now().UnixNano()` at which `cache.Set` runs. -/
  now : Int
  /-- Identity of the channel made on line 82. -/
  data_chan : ChanId
  /-- Error of `MQTTSubscribeSync` on line 85, if any. -/
  subscribeErr : Option String
  /-- Error of `MQTTPublishMsg` on line 107, if any. -/
  publishErr : Option String
  /-- Payload written to `data_chan` before the ticker of line 134 fires, if any. -/
  delivered : Option Bytes
deriving DecidableEq, Repr

/-- The functions `json.Marshal` and `json.Unmarshal` at the request type `Q` and
the response type `DBResponse P`.  `unmarshal b d` is the value of the response
after decoding `b` into `d` together with the error, if any. -/
structure Codec (Q P : Type) where
  marshal : Q → Except String Bytes
  unmarshal : Bytes → DBResponse P → DBResponse P × Option String

/-- The observable steps of a call, in the order they happen. -/
inductive Event where
  | cacheSet (reqid : String)
  | subscribe (topic : ResponseTopic) (ok : Bool)
  | marshal (ok : Bool)
  | publish (topic : RequestTopic) (ok : Bool)
  | wait
  | received (data : Bytes)
  | tick
  | unsubscribe (topic : ResponseTopic)
deriving DecidableEq, Repr

/-- What a returned call leaves behind: the returned error list, the value behind
`data_ptr`, the session and the steps taken. -/
structure ExecResult (P : Type) where
  errors : List ModelError
  data : DBResponse P
  state : StatefulORM
  trace : List Event
deriving DecidableEq, Repr

/-- Outcome of the `select` of lines 121 to 142. -/
inductive Selected where
  | data (data_raw : Bytes)
  | tick
deriving DecidableEq, Repr

/-- The `select` of lines 121 to 142 with `time.Tick(timeout)`.  The library
function `time.Tick` returns a nil channel when the duration is not positive, so
that case of the `select` can then never be taken: without a payload the call
blocks forever (`none`). -/
def selectWait (timeout : Duration) (delivered : Option Bytes) : Option Selected :=
  match delivered with
  | some data_raw => some (Selected.data data_raw)
  | none => if timeout ≤ 0 then none else some Selected.tick

/-- The request topic built on lines 73 to 80. -/
def reqTopic (self : StatefulORM) (reqid : String) (op : Operation) : RequestTopic :=
  { SenderModule := self.mqtt_info.SenderModule
    SenderID := self.mqtt_info.SenderID
    ReceiverModule := ModuleDB
    ReceiverID := self.mqtt_info.DbID
    RequestID := reqid
    Operation := op }

/-- The session after line 84, run at the instant `now`: the callback that
writes to `data_chan` is registered under `reqid` with the session timeout. -/
def registered (self : StatefulORM) (now : Int) (reqid : String) (data_chan : ChanId) :
    StatefulORM :=
  { self with cache := self.cache.Set now reqid { chan := data_chan } self.timeout }

/-- The session while the call waits (after line 85 succeeded): the callback is
registered and the exact subscription on the response topic is open. -/
def awaiting (self : StatefulORM) (env : CallEnv) (op : Operation) : StatefulORM :=
  let s1 := registered self env.now env.reqid env.data_chan
  let rspTopic := (reqTopic self env.reqid op).ToResponse
  { s1 with broker := s1.broker.subscribe rspTopic (Handler.forward env.data_chan) }

/-- A return after line 95: the deferred `MQTTMustUnsubscribeSync` runs last. -/
def deferredReturn {P : Type} (s2 : StatefulORM) (rspTopic : ResponseTopic)
    (errors : List ModelError) (data : DBResponse P) (trace : List Event) : ExecResult P :=
  { errors := errors
    data := data
    state := { s2 with broker := s2.broker.unsubscribe rspTopic }
    trace := trace ++ [Event.unsubscribe rspTopic] }

/-- The method `mqttExec` (lines 71 to 145).  `data_ptr` is the value the pointer
argument points to; `none` means the call never returns. -/
def mqttExec {Q P : Type} (self : StatefulORM) (env : CallEnv) (codec : Codec Q P)
    (op : Operation) (request : Q) (data_ptr : DBResponse P) : Option (ExecResult P) :=
  let reqT := reqTopic self env.reqid op
  let rspTopic := reqT.ToResponse
  let s1 := registered self env.now env.reqid env.data_chan
  match env.subscribeErr with
  | some err =>
    some { errors := [{ Type_ := WimarkErrorCode.WimarkErrorCodeMqtt, Description := err }]
           data := data_ptr
           state := s1
           trace := [Event.cacheSet env.reqid, Event.subscribe rspTopic false] }
  | none =>
    let s2 := awaiting self env op
    let t2 := [Event.cacheSet env.reqid, Event.subscribe rspTopic true]
    match codec.marshal request with
    | Except.error reqErr =>
      some (deferredReturn s2 rspTopic
        [{ Type_ := WimarkErrorCode.WimarkErrorCodeJson, Description := reqErr }]
        data_ptr (t2 ++ [Event.marshal false]))
    | Except.ok _ =>
      match env.publishErr with
      | some err =>
        some (deferredReturn s2 rspTopic
          [{ Type_ := WimarkErrorCode.WimarkErrorCodeMqtt, Description := err }]
          data_ptr (t2 ++ [Event.marshal true, Event.publish reqT false]))
      | none =>
        let t3 := t2 ++ [Event.marshal true, Event.publish reqT true, Event.wait]
        match selectWait self.timeout env.delivered with
        | none => none
        | some (Selected.data data_raw) =>
          match codec.unmarshal data_raw data_ptr with
          | (data, some err) =>
            some (deferredReturn s2 rspTopic
              [{ Type_ := WimarkErrorCode.WimarkErrorCodeJson, Description := err }]
              data (t3 ++ [Event.received data_raw]))
          | (data, none) =>
            some (deferredReturn s2 rspTopic [] data (t3 ++ [Event.received data_raw]))
        | some Selected.tick =>
          some (deferredReturn s2 rspTopic
            [{ Type_ := WimarkErrorCode.WimarkErrorCodeDB
               Description := "Timed out waiting for DB reply" }]
            data_ptr (t3 ++ [Event.tick]))

/-- The exit paths of `mqttExec`: a returned call took exactly one of them. -/
inductive ExitPath {Q P : Type} (self : StatefulORM) (env : CallEnv) (codec : Codec Q P)
    (op : Operation) (request : Q) (data_ptr : DBResponse P) : ExecResult P → Prop where
  | subscribeFailed (e : String) (hs : env.subscribeErr = some e) :
    ExitPath self env codec op request data_ptr
      { errors := [{ Type_ := WimarkErrorCode.WimarkErrorCodeMqtt, Description := e }]
        data := data_ptr
        state := registered self env.now env.reqid env.data_chan
        trace := [Event.cacheSet env.reqid,
          Event.subscribe (reqTopic self env.reqid op).ToResponse false] }
  | encodeFailed (reqErr : String) (hs : env.subscribeErr = none)
      (hm : codec.marshal request = Except.error reqErr) :
    ExitPath self env codec op request data_ptr
      (deferredReturn (awaiting self env op) (reqTopic self env.reqid op).ToResponse
        [{ Type_ := WimarkErrorCode.WimarkErrorCodeJson, Description := reqErr }] data_ptr
        [Event.cacheSet env.reqid, Event.subscribe (reqTopic self env.reqid op).ToResponse true,
          Event.marshal false])
  | publishFailed (b : Bytes) (e : String) (hs : env.subscribeErr = none)
      (hm : codec.marshal request = Except.ok b) (hp : env.publishErr = some e) :
    ExitPath self env codec op request data_ptr
      (deferredReturn (awaiting self env op) (reqTopic self env.reqid op).ToResponse
        [{ Type_ := WimarkErrorCode.WimarkErrorCodeMqtt, Description := e }] data_ptr
        [Event.cacheSet env.reqid, Event.subscribe (reqTopic self env.reqid op).ToResponse true,
          Event.marshal true, Event.publish (reqTopic self env.reqid op) false])
  | timedOut (b : Bytes) (hs : env.subscribeErr = none)
      (hm : codec.marshal request = Except.ok b) (hp : env.publishErr = none)
      (hd : env.delivered = none) (ht : 0 < self.timeout) :
    ExitPath self env codec op request data_ptr
      (deferredReturn (awaiting self env op) (reqTopic self env.reqid op).ToResponse
        [{ Type_ := WimarkErrorCode.WimarkErrorCodeDB
           Description := "Timed out waiting for DB reply" }] data_ptr
        [Event.cacheSet env.reqid, Event.subscribe (reqTopic self env.reqid op).ToResponse true,
          Event.marshal true, Event.publish (reqTopic self env.reqid op) true, Event.wait,
          Event.tick])
  | decodeFailed (b data_raw : Bytes) (d : DBResponse P) (err : String)
      (hs : env.subscribeErr = none) (hm : codec.marshal request = Except.ok b)
      (hp : env.publishErr = none) (hd : env.delivered = some data_raw)
      (hu : codec.unmarshal data_raw data_ptr = (d, some err)) :
    ExitPath self env codec op request data_ptr
      (deferredReturn (awaiting self env op) (reqTopic self env.reqid op).ToResponse
        [{ Type_ := WimarkErrorCode.WimarkErrorCodeJson, Description := err }] d
        [Event.cacheSet env.reqid, Event.subscribe (reqTopic self env.reqid op).ToResponse true,
          Event.marshal true, Event.publish (reqTopic self env.reqid op) true, Event.wait,
          Event.received data_raw])
  | decoded (b data_raw : Bytes) (d : DBResponse P)
      (hs : env.subscribeErr = none) (hm : codec.marshal request = Except.ok b)
      (hp : env.publishErr = none) (hd : env.delivered = some data_raw)
      (hu : codec.unmarshal data_raw data_ptr = (d, none)) :
    ExitPath self env codec op request data_ptr
      (deferredReturn (awaiting self env op) (reqTopic self env.reqid op).ToResponse [] d
        [Event.cacheSet env.reqid, Event.subscribe (reqTopic self env.reqid op).ToResponse true,
          Event.marshal true, Event.publish (reqTopic self env.reqid op) true, Event.wait,
          Event.received data_raw])

/-! ## The four operations -/

/-- The assignment `data.Errors = self.mqttExec(op, &request, &data)` followed by
`return data`, shared by lines 147 to 166.  In the result, `data` is the response
the method returns: what the call left behind `&data`, with `Errors` set to the
list `mqttExec` returned.  `errors`, `state` and `trace` are those of the call of
`mqttExec`: the list it returned, the session afterwards and the steps it took. -/
def runOp {Q P : Type} [Inhabited P] (self : StatefulORM) (env : CallEnv) (codec : Codec Q P)
    (op : Operation) (request : Q) : Option (ExecResult P) :=
  let data : DBResponse P := DBResponse.zero
  (mqttExec self env codec op request data).map
    (fun r => { r with data := { r.data with Errors := r.errors } })

/-- The method `Create` (lines 147 to 151): the returned response is `data`. -/
def Create {Q P : Type} [Inhabited P] (self : StatefulORM) (env : CallEnv) (codec : Codec Q P)
    (request : Q) : Option (ExecResult P) :=
  runOp self env codec Operation.OperationCreate request

/-- The method `Read` (lines 152 to 156): the returned response is `data`. -/
def Read {Q P : Type} [Inhabited P] (self : StatefulORM) (env : CallEnv) (codec : Codec Q P)
    (request : Q) : Option (ExecResult P) :=
  runOp self env codec Operation.OperationRead request

/-- The method `Update` (lines 157 to 161): the returned response is `data`. -/
def Update {Q P : Type} [Inhabited P] (self : StatefulORM) (env : CallEnv) (codec : Codec Q P)
    (request : Q) : Option (ExecResult P) :=
  runOp self env codec Operation.OperationUpdate request

/-- The method `Delete` (lines 162 to 166): the returned response is `data`. -/
def Delete {Q P : Type} [Inhabited P] (self : StatefulORM) (env : CallEnv) (codec : Codec Q P)
    (request : Q) : Option (ExecResult P) :=
  runOp self env codec Operation.OperationDelete request

/-- The response a call of one of the four methods returns, if it returns. -/
def returned {P : Type} (call : Option (ExecResult P)) : Option (DBResponse P) :=
  call.map (fun r => r.data)

/-- What it means for a method to run the call executor with the operation kind
`op`, stated on what the method does.

* The method returns exactly when `mqttExec`, run with `op` on the zero response,
  returns; the response then has the payload that call left behind `data_ptr`
  and, as `Errors`, exactly the list that call returned, and the steps and the
  session are those of that call.
* Every request the method publishes goes to the topic from the session identity
  to `(ModuleDB, DbID)` with the request id of the call and the kind `op`.
* The method does publish on that topic whenever the exact subscription succeeds
  and the request encodes. -/
def RunsExecutorAs {Q P : Type} [Inhabited P]
    (method : StatefulORM → CallEnv → Codec Q P → Q → Option (ExecResult P))
    (op : Operation) : Prop :=
  ∀ (self : StatefulORM) (env : CallEnv) (codec : Codec Q P) (request : Q),
    (∀ res, method self env codec request = some res →
      ∃ r, mqttExec self env codec op request DBResponse.zero = some r ∧
        res.data.Errors = r.errors ∧ res.data.payload = r.data.payload ∧
        res.errors = r.errors ∧ res.trace = r.trace ∧ res.state = r.state) ∧
    (∀ r, mqttExec self env codec op request DBResponse.zero = some r →
      ∃ res, method self env codec request = some res) ∧
    (∀ res t ok, method self env codec request = some res →
      Event.publish t ok ∈ res.trace →
      t = { SenderModule := self.mqtt_info.SenderModule
            SenderID := self.mqtt_info.SenderID
            ReceiverModule := ModuleDB
            ReceiverID := self.mqtt_info.DbID
            RequestID := env.reqid
            Operation := op }) ∧
    (∀ res b, method self env codec request = some res → env.subscribeErr = none →
      codec.marshal request = Except.ok b →
      ∃ ok, Event.publish
        { SenderModule := self.mqtt_info.SenderModule
          SenderID := self.mqtt_info.SenderID
          ReceiverModule := ModuleDB
          ReceiverID := self.mqtt_info.DbID
          RequestID := env.reqid
          Operation := op } ok ∈ res.trace)

/-! ## Delivery of inbound messages -/

/-- Modelled from the spec: the topic match of the MQTT client, which is not part
of `lib.go`.  Section 4.3: the wildcard subscription matches "any reply addressed
to this identity (wildcard request-id)"; any other filter matches its own topic. -/
def topicMatches (filter t : ResponseTopic) : Bool :=
  filter.SenderModule == t.SenderModule && filter.SenderID == t.SenderID &&
  filter.ReceiverModule == t.ReceiverModule && filter.ReceiverID == t.ReceiverID &&
  (filter.RequestID == MQTT_ANY_WILDCARD || filter.RequestID == t.RequestID)

/-- The channel writes a handler attempts when it is run on `msg`: the wildcard
handler calls the callback it finds (lines 51 to 54), the handler of line 85
writes the payload to its channel. -/
def Handler.run (ParseResponseTopic : String → Option ResponseTopic) (self : StatefulORM)
    (now : Int) (h : Handler) (msg : Message) : List ChanWrite :=
  match h with
  | Handler.wildcard =>
    (wildcardHandler ParseResponseTopic self now msg).map (fun p => p.1.call p.2)
  | Handler.forward data_chan => [{ chan := data_chan, data := msg.Payload }]

/-- Modelled from the spec: the dispatch of the MQTT client, which is not part of
`lib.go`.  Sections 4.3 and 9: an inbound message is handed to the handler of
every subscription whose topic matches it, the long-lived wildcard listener and
the short-lived exact-topic listener alike. -/
def dispatch (ParseResponseTopic : String → Option ResponseTopic) (self : StatefulORM)
    (now : Int) (msg : Message) : List ChanWrite :=
  match ParseResponseTopic msg.Topic with
  | none => []
  | some t =>
    (self.broker.subs.filter (fun s => topicMatches s.topic t)).flatMap
      (fun s => s.handler.run ParseResponseTopic self now msg)

/-- The state of a channel after the given writes were attempted on it. -/
def Chan.sendAll (c : Chan) (ws : List ChanWrite) : Chan :=
  ws.foldl (fun ch w => ch.send w.data) c

/-! ## The correlation table over time -/

/-- A session together with the clock and the callback invocations made so far. -/
structure Sys where
  orm : StatefulORM
  now : Int
  calls : List (Callback × Bytes)
deriving DecidableEq, Repr

/-- The steps that touch the correlation table: `cache.Set` at the start of a call
(line 84), a message reaching the wildcard handler (lines 48 to 56), time passing,
and a run of the janitor of go-cache. -/
inductive TableStep where
  | register (reqid : String) (data_chan : ChanId)
  | deliver (msg : Message)
  | clock (dt : Nat)
  | sweep
deriving DecidableEq, Repr

/-- One step of the table. -/
def Sys.step (ParseResponseTopic : String → Option ResponseTopic) (s : Sys) :
    TableStep → Sys
  | TableStep.register reqid data_chan =>
    { s with orm := registered s.orm s.now reqid data_chan }
  | TableStep.deliver msg =>
    { s with calls := s.calls ++ wildcardHandler ParseResponseTopic s.orm s.now msg }
  | TableStep.clock dt => { s with now := s.now + dt }
  | TableStep.sweep =>
    { s with orm := { s.orm with cache := s.orm.cache.janitorRun s.now } }

/-- A sequence of steps of the table. -/
def Sys.run (ParseResponseTopic : String → Option ResponseTopic) (s : Sys)
    (steps : List TableStep) : Sys :=
  steps.foldl (Sys.step ParseResponseTopic) s

/-- Whether a step registers the request id `r`. -/
def TableStep.registers (r : String) : TableStep → Bool
  | TableStep.register reqid _ => reqid == r
  | _ => false

/-- The invariant of the binding of `r` between its registration and the next one:
every binding of `r` in the table is the callback `x` with the expiration `e`, and
one is there unless `e` is an instant that has passed. -/
def BoundUntil (r : String) (x : Callback) (e : Int) (s : Sys) : Prop :=
  (∀ p ∈ s.orm.cache.items, p.1 = r → p.2 = { Object := x, Expiration := e }) ∧
  ((∃ p ∈ s.orm.cache.items, p.1 = r) ∨ (0 < e ∧ e < s.now))

/-! ## Concrete inputs -/

/-- A client identity. -/
def exInfo : MQTTData :=
  { BrokerAddr := "tcp://broker:1883", DbID := "db1", SenderModule := ⟨"BACKEND"⟩,
    SenderID := "a1" }

/-- A session on which `Connect` has not run. -/
def exFresh : StatefulORM :=
  { connected := false, broker := { subs := [] }, mqtt_info := exInfo,
    cache := Cache.New 0 0, timeout := 0 }

/-- The session after `Connect` with a request timeout of two seconds. -/
def exSession : StatefulORM := (Connect exFresh none none exInfo 2000000000).1

/-- The session after `Connect` with a request timeout of zero. -/
def exSessionZero : StatefulORM := (Connect exFresh none none exInfo 0).1

/-- A codec on numbers: the request `0` does not encode, a reply decodes when it
is a single byte. -/
def exCodec : Codec Nat Nat :=
  { marshal := fun q => if q = 0 then Except.error "unsupported value" else Except.ok [q]
    unmarshal := fun b d =>
      match b with
      | [n] => ({ d with payload := n }, none)
      | _ => (d, some "unexpected end of JSON input") }

/-- A call during which nothing fails and no reply arrives. -/
def exEnv : CallEnv :=
  { reqid := "r1", now := 1000, data_chan := 7, subscribeErr := none, publishErr := none,
    delivered := none }

/-- A call during which the reply `[42]` arrives. -/
def exEnvReply : CallEnv := { exEnv with delivered := some [42] }

/-- A call whose exact subscription fails. -/
def exEnvSubFail : CallEnv := { exEnv with subscribeErr := some "not connected" }

/-- A call whose publish fails. -/
def exEnvPubFail : CallEnv := { exEnv with publishErr := some "broker rejected" }

/-- The result of `mqttExec` for a `Read` on `exSession` that times out. -/
def exResult : ExecResult Nat :=
  deferredReturn (awaiting exSession exEnv Operation.OperationRead)
    (reqTopic exSession "r1" Operation.OperationRead).ToResponse
    [{ Type_ := WimarkErrorCode.WimarkErrorCodeDB
       Description := "Timed out waiting for DB reply" }]
    DBResponse.zero
    [Event.cacheSet "r1",
      Event.subscribe (reqTopic exSession "r1" Operation.OperationRead).ToResponse true,
      Event.marshal true, Event.publish (reqTopic exSession "r1" Operation.OperationRead) true,
      Event.wait, Event.tick]

/-- What the `Read` on `exSession` that times out gives: `exResult` with the
returned error list stored in `Errors`. -/
def exReadResult : ExecResult Nat :=
  { exResult with data := { exResult.data with Errors := exResult.errors } }

/-- A parser of response topics that knows the reply topics of the calls `r1` and
`r2` of `exInfo`. -/
def exParse (topic : String) : Option ResponseTopic :=
  if topic = "RSP/DB/db1/BACKEND/a1/r1" then
    some { SenderModule := ModuleDB, SenderID := "db1", ReceiverModule := ⟨"BACKEND"⟩,
           ReceiverID := "a1", RequestID := "r1" }
  else if topic = "RSP/DB/db1/BACKEND/a1/r2" then
    some { SenderModule := ModuleDB, SenderID := "db1", ReceiverModule := ⟨"BACKEND"⟩,
           ReceiverID := "a1", RequestID := "r2" }
  else none

/-- The reply `[42]` to the call `r1`. -/
def exReply : Message := { Topic := "RSP/DB/db1/BACKEND/a1/r1", Payload := [42] }

/-- The table of `exSession` with the clock at `1000`. -/
def exSys : Sys := { orm := exSession, now := 1000, calls := [] }

/-- The table of `exSessionZero` with the clock at `1000`. -/
def exSysZero : Sys := { orm := exSessionZero, now := 1000, calls := [] }

/-! # Theorems -/

/-! ## The call executor -/

theorem filter_ne_of_fresh (subs : List Subscription) (topic : ResponseTopic)
    (hfresh : ∀ s ∈ subs, s.topic ≠ topic) :
    subs.filter (fun s => s.topic != topic) = subs := by
  rw [List.filter_eq_self]
  intro s hs
  simpa using hfresh s hs

theorem unsubscribe_subscribe_of_fresh (b : Broker) (topic : ResponseTopic) (h : Handler)
    (hfresh : ∀ s ∈ b.subs, s.topic ≠ topic) :
    (b.subscribe topic h).unsubscribe topic = b := by
  cases b with
  | mk subs =>
    simp only [Broker.subscribe, Broker.unsubscribe, List.filter_append, List.filter_filter,
      Bool.and_self]
    simp [filter_ne_of_fresh subs topic hfresh]

theorem mqttExec_exitPath {Q P : Type} (self : StatefulORM) (env : CallEnv)
    (codec : Codec Q P) (op : Operation) (request : Q) (data_ptr : DBResponse P)
    (r : ExecResult P) (hret : mqttExec self env codec op request data_ptr = some r) :
    ExitPath self env codec op request data_ptr r := by
  cases hs : env.subscribeErr with
  | some e =>
    simp only [mqttExec, hs, Option.some.injEq] at hret
    subst hret
    exact ExitPath.subscribeFailed e hs
  | none =>
    simp only [mqttExec, hs] at hret
    cases hm : codec.marshal request with
    | error reqErr =>
      simp only [hm, Option.some.injEq] at hret
      subst hret
      exact ExitPath.encodeFailed reqErr hs hm
    | ok b =>
      simp only [hm] at hret
      cases hp : env.publishErr with
      | some e =>
        simp only [hp, Option.some.injEq] at hret
        subst hret
        exact ExitPath.publishFailed b e hs hm hp
      | none =>
        simp only [hp] at hret
        cases hd : env.delivered with
        | none =>
          by_cases ht : self.timeout ≤ 0
          · simp [selectWait, hd, ht] at hret
          · simp only [selectWait, hd, ht, if_false, Option.some.injEq] at hret
            subst hret
            exact ExitPath.timedOut b hs hm hp hd (not_le.mp ht)
        | some data_raw =>
          simp only [selectWait, hd] at hret
          rcases hu : codec.unmarshal data_raw data_ptr with ⟨d, _ | err⟩
          · simp only [hu, Option.some.injEq] at hret
            subst hret
            exact ExitPath.decoded b data_raw d hs hm hp hd hu
          · simp only [hu, Option.some.injEq] at hret
            subst hret
            exact ExitPath.decodeFailed b data_raw d err hs hm hp hd hu

/-- C5: a returned call whose exact subscription was opened unsubscribes from its
response topic exactly once, as its last step, and from no other topic; if no
subscription on that (freshly named) topic existed before, the subscriptions of
the session afterwards are those before the call.  A returned call whose exact
subscription failed leaves the subscriptions as they were. -/
theorem unsubscribes_exactly_once {Q P : Type} (self : StatefulORM) (env : CallEnv)
    (codec : Codec Q P) (op : Operation) (request : Q) (data_ptr : DBResponse P)
    (r : ExecResult P) (hret : mqttExec self env codec op request data_ptr = some r) :
    (env.subscribeErr = none →
      r.trace.count (Event.unsubscribe (reqTopic self env.reqid op).ToResponse) = 1 ∧
      r.trace.getLast? = some (Event.unsubscribe (reqTopic self env.reqid op).ToResponse) ∧
      (∀ t, Event.unsubscribe t ∈ r.trace → t = (reqTopic self env.reqid op).ToResponse) ∧
      ((∀ s ∈ self.broker.subs, s.topic ≠ (reqTopic self env.reqid op).ToResponse) →
        r.state.broker = self.broker)) ∧
    (env.subscribeErr ≠ none →
      (∀ t, Event.unsubscribe t ∉ r.trace) ∧ r.state.broker = self.broker) := by
  have hb : ∀ (errs : List ModelError) (d : DBResponse P) (tr : List Event),
      (∀ s ∈ self.broker.subs, s.topic ≠ (reqTopic self env.reqid op).ToResponse) →
      (deferredReturn (awaiting self env op) (reqTopic self env.reqid op).ToResponse
        errs d tr).state.broker = self.broker := by
    intro errs d tr hfresh
    simp only [deferredReturn, awaiting, registered]
    exact unsubscribe_subscribe_of_fresh self.broker _ _ hfresh
  cases mqttExec_exitPath self env codec op request data_ptr r hret with
  | subscribeFailed e hs => simp [hs, registered]
  | encodeFailed reqErr hs hm =>
    exact ⟨fun _ => ⟨by simp [deferredReturn, List.count_cons], by simp [deferredReturn],
      by simp [deferredReturn], hb _ _ _⟩, fun h => absurd hs h⟩
  | publishFailed b e hs hm hp =>
    exact ⟨fun _ => ⟨by simp [deferredReturn, List.count_cons], by simp [deferredReturn],
      by simp [deferredReturn], hb _ _ _⟩, fun h => absurd hs h⟩
  | timedOut b hs hm hp hd ht =>
    exact ⟨fun _ => ⟨by simp [deferredReturn, List.count_cons], by simp [deferredReturn],
      by simp [deferredReturn], hb _ _ _⟩, fun h => absurd hs h⟩
  | decodeFailed b data_raw d err hs hm hp hd hu =>
    exact ⟨fun _ => ⟨by simp [deferredReturn, List.count_cons], by simp [deferredReturn],
      by simp [deferredReturn], hb _ _ _⟩, fun h => absurd hs h⟩
  | decoded b data_raw d hs hm hp hd hu =>
    exact ⟨fun _ => ⟨by simp [deferredReturn, List.count_cons], by simp [deferredReturn],
      by simp [deferredReturn], hb _ _ _⟩, fun h => absurd hs h⟩

/-- The timed-out `Read` unsubscribes once and leaves the subscriptions as they were. -/
theorem unsubscribes_exactly_once_witness :
    mqttExec exSession exEnv exCodec Operation.OperationRead 5 DBResponse.zero = some exResult ∧
    exResult.trace.count
      (Event.unsubscribe (reqTopic exSession exEnv.reqid Operation.OperationRead).ToResponse) = 1 ∧
    exResult.state.broker = exSession.broker :=
  ⟨rfl,
    ((unsubscribes_exactly_once exSession exEnv exCodec Operation.OperationRead 5
      DBResponse.zero exResult rfl).1 rfl).1,
    ((unsubscribes_exactly_once exSession exEnv exCodec Operation.OperationRead 5
      DBResponse.zero exResult rfl).1 rfl).2.2.2 (by decide)⟩

/-- C8: the error list of a returned call is empty exactly when a payload was
received and decoded without error; otherwise it is the single timeout error
`WimarkErrorCodeDB`, which happens exactly when the ticker fired, or it is not
empty and holds only `WimarkErrorCodeMqtt` and `WimarkErrorCodeJson` errors.  A
received payload that fails to decode gives the single error `WimarkErrorCodeJson`. -/
theorem error_list_shapes {Q P : Type} (self : StatefulORM) (env : CallEnv)
    (codec : Codec Q P) (op : Operation) (request : Q) (data_ptr : DBResponse P)
    (r : ExecResult P) (hret : mqttExec self env codec op request data_ptr = some r) :
    (r.errors = [] ↔
      ∃ b, Event.received b ∈ r.trace ∧ (codec.unmarshal b data_ptr).2 = none) ∧
    (r.errors = [{ Type_ := WimarkErrorCode.WimarkErrorCodeDB
                   Description := "Timed out waiting for DB reply" }] ↔
      Event.tick ∈ r.trace) ∧
    (r.errors = [] ∨
      r.errors = [{ Type_ := WimarkErrorCode.WimarkErrorCodeDB
                    Description := "Timed out waiting for DB reply" }] ∨
      (r.errors ≠ [] ∧ ∀ e ∈ r.errors, e.Type_ = WimarkErrorCode.WimarkErrorCodeMqtt ∨
        e.Type_ = WimarkErrorCode.WimarkErrorCodeJson)) ∧
    (∀ b err, Event.received b ∈ r.trace → (codec.unmarshal b data_ptr).2 = some err →
      r.errors = [{ Type_ := WimarkErrorCode.WimarkErrorCodeJson, Description := err }]) := by
  cases mqttExec_exitPath self env codec op request data_ptr r hret with
  | subscribeFailed e hs => simp
  | encodeFailed reqErr hs hm => simp [deferredReturn]
  | publishFailed b e hs hm hp => simp [deferredReturn]
  | timedOut b hs hm hp hd ht => simp [deferredReturn]
  | decodeFailed b data_raw d err hs hm hp hd hu =>
    simp only [deferredReturn]
    refine ⟨by simp [hu], by simp, by simp, ?_⟩
    intro b1 err1 hmem hdec
    have hb1 : b1 = data_raw := by simpa using hmem
    subst hb1
    rw [hu] at hdec
    simp at hdec
    simp [hdec]
  | decoded b data_raw d hs hm hp hd hu =>
    simp only [deferredReturn]
    refine ⟨by simp [hu], by simp, by simp, ?_⟩
    intro b1 err1 hmem hdec
    have hb1 : b1 = data_raw := by simpa using hmem
    subst hb1
    rw [hu] at hdec
    simp at hdec

/-- The timed-out `Read` has the single timeout error and a tick in its trace. -/
theorem error_list_shapes_witness :
    mqttExec exSession exEnv exCodec Operation.OperationRead 5 DBResponse.zero = some exResult ∧
    (exResult.errors = [{ Type_ := WimarkErrorCode.WimarkErrorCodeDB
                          Description := "Timed out waiting for DB reply" }] ↔
      Event.tick ∈ exResult.trace) :=
  ⟨rfl, (error_list_shapes exSession exEnv exCodec Operation.OperationRead 5
    DBResponse.zero exResult rfl).2.1⟩

theorem runOp_runsExecutorAs {Q P : Type} [Inhabited P] (op : Operation) :
    RunsExecutorAs (fun self env (codec : Codec Q P) request => runOp self env codec op request)
      op := by
  intro self env codec request
  have hpub : ∀ r, mqttExec self env codec op request DBResponse.zero = some r →
      (∀ t ok, Event.publish t ok ∈ r.trace → t = reqTopic self env.reqid op) ∧
      (∀ b, env.subscribeErr = none → codec.marshal request = Except.ok b →
        ∃ ok, Event.publish (reqTopic self env.reqid op) ok ∈ r.trace) := by
    intro r hret
    cases mqttExec_exitPath self env codec op request DBResponse.zero r hret with
    | subscribeFailed e hs =>
      exact ⟨fun t ok hmem => by simp at hmem, fun b hs2 _ => by rw [hs] at hs2; simp at hs2⟩
    | encodeFailed reqErr hs hm =>
      exact ⟨fun t ok hmem => by simp [deferredReturn] at hmem,
        fun b _ hm2 => by rw [hm] at hm2; simp at hm2⟩
    | publishFailed b e hs hm hp =>
      exact ⟨fun t ok hmem => by simp [deferredReturn] at hmem; exact hmem.1,
        fun _ _ _ => ⟨false, by simp [deferredReturn]⟩⟩
    | timedOut b hs hm hp hd ht =>
      exact ⟨fun t ok hmem => by simp [deferredReturn] at hmem; exact hmem.1,
        fun _ _ _ => ⟨true, by simp [deferredReturn]⟩⟩
    | decodeFailed b data_raw d err hs hm hp hd hu =>
      exact ⟨fun t ok hmem => by simp [deferredReturn] at hmem; exact hmem.1,
        fun _ _ _ => ⟨true, by simp [deferredReturn]⟩⟩
    | decoded b data_raw d hs hm hp hd hu =>
      exact ⟨fun t ok hmem => by simp [deferredReturn] at hmem; exact hmem.1,
        fun _ _ _ => ⟨true, by simp [deferredReturn]⟩⟩
  have hres : ∀ res, runOp self env codec op request = some res →
      ∃ r, mqttExec self env codec op request DBResponse.zero = some r ∧
        res = { r with data := { r.data with Errors := r.errors } } := by
    intro res hres
    simp only [runOp, Option.map_eq_some'] at hres
    obtain ⟨r, hr, hrr⟩ := hres
    exact ⟨r, hr, hrr.symm⟩
  refine ⟨?_, ?_, ?_, ?_⟩
  · intro res h
    obtain ⟨r, hr, rfl⟩ := hres res h
    exact ⟨r, hr, rfl, rfl, rfl, rfl, rfl⟩
  · intro r hr
    exact ⟨{ r with data := { r.data with Errors := r.errors } }, by
      simp only [runOp, hr, Option.map_some']⟩
  · intro res t ok h hmem
    obtain ⟨r, hr, rfl⟩ := hres res h
    exact (hpub r hr).1 t ok hmem
  · intro res b h hs hm
    obtain ⟨r, hr, rfl⟩ := hres res h
    exact (hpub r hr).2 b hs hm

/-- C9: `Create`, `Read`, `Update` and `Delete` run the call executor with the
operation kinds `OperationCreate`, `OperationRead`, `OperationUpdate` and
`OperationDelete`: each returns exactly when `mqttExec` with its kind returns, the
`Errors` of the returned response are exactly the list `mqttExec` returned, and its
request is published on the topic from the session identity to `(ModuleDB, DbID)`
with that kind. -/
theorem operations_propagate_errors {Q P : Type} [Inhabited P] :
    RunsExecutorAs (Create : StatefulORM → CallEnv → Codec Q P → Q → Option (ExecResult P))
      Operation.OperationCreate ∧
    RunsExecutorAs (Read : StatefulORM → CallEnv → Codec Q P → Q → Option (ExecResult P))
      Operation.OperationRead ∧
    RunsExecutorAs (Update : StatefulORM → CallEnv → Codec Q P → Q → Option (ExecResult P))
      Operation.OperationUpdate ∧
    RunsExecutorAs (Delete : StatefulORM → CallEnv → Codec Q P → Q → Option (ExecResult P))
      Operation.OperationDelete :=
  ⟨runOp_runsExecutorAs Operation.OperationCreate, runOp_runsExecutorAs Operation.OperationRead,
    runOp_runsExecutorAs Operation.OperationUpdate,
    runOp_runsExecutorAs Operation.OperationDelete⟩

/-- The timed-out `Read` published its request from `(BACKEND, a1)` to `(DB, db1)`
with the kind `OperationRead`, and its `Errors` are the list `mqttExec` returned. -/
theorem operations_propagate_errors_witness :
    Read exSession exEnv exCodec 5 = some exReadResult ∧
    exReadResult.data.Errors = exResult.errors ∧
    (∃ ok, Event.publish
      { SenderModule := ⟨"BACKEND"⟩, SenderID := "a1", ReceiverModule := ModuleDB,
        ReceiverID := "db1", RequestID := "r1", Operation := Operation.OperationRead } ok ∈
      exReadResult.trace) ∧
    ∀ t ok, Event.publish t ok ∈ exReadResult.trace →
      t.Operation = Operation.OperationRead :=
  ⟨rfl, rfl,
    ((operations_propagate_errors (Q := Nat) (P := Nat)).2.1 exSession exEnv exCodec 5).2.2.2
      exReadResult [5] rfl rfl rfl,
    fun t ok hmem => by
      rw [((operations_propagate_errors (Q := Nat) (P := Nat)).2.1 exSession exEnv exCodec
        5).2.2.1 exReadResult t ok rfl hmem]⟩

/-- C1 (amended): for a positive timeout, a call of any of the four operations
whose subscription and publish succeed, whose request encodes and which receives
no payload before the ticker fires returns the zero response with the single
error `WimarkErrorCodeDB`, "Timed out waiting for DB reply". -/
theorem timeout_single_db_error {Q P : Type} [Inhabited P] (self : StatefulORM)
    (env : CallEnv) (codec : Codec Q P) (request : Q) (encoded : Bytes)
    (hpos : 0 < self.timeout) (hsub : env.subscribeErr = none)
    (henc : codec.marshal request = Except.ok encoded) (hpub : env.publishErr = none)
    (hnone : env.delivered = none) :
    let timedOut : DBResponse P :=
      { payload := default
        Errors := [{ Type_ := WimarkErrorCode.WimarkErrorCodeDB
                     Description := "Timed out waiting for DB reply" }] }
    returned (Create self env codec request) = some timedOut ∧
    returned (Read self env codec request) = some timedOut ∧
    returned (Update self env codec request) = some timedOut ∧
    returned (Delete self env codec request) = some timedOut := by
  have h : ¬ self.timeout ≤ 0 := not_le.mpr hpos
  simp [returned, Create, Read, Update, Delete, runOp, mqttExec, selectWait, deferredReturn,
    DBResponse.zero, hsub, henc, hpub, hnone, h]

/-- A `Read` on the two-second session that receives no reply. -/
theorem timeout_single_db_error_witness :
    0 < exSession.timeout ∧ exEnv.subscribeErr = none ∧ exCodec.marshal 5 = Except.ok [5] ∧
    exEnv.publishErr = none ∧ exEnv.delivered = none ∧
    returned (Read exSession exEnv exCodec 5) =
      some { payload := 0
             Errors := [{ Type_ := WimarkErrorCode.WimarkErrorCodeDB
                          Description := "Timed out waiting for DB reply" }] } :=
  ⟨by decide, rfl, rfl, rfl, rfl,
    (timeout_single_db_error exSession exEnv exCodec 5 [5] (by decide) rfl rfl rfl rfl).2.1⟩

/-- C1 (counterexample): with a configured timeout of zero, a `Read` whose
subscription and publish succeed, whose request encodes and which receives no
payload never returns. -/
theorem timeout_zero_never_returns :
    exSessionZero.timeout = 0 ∧ exEnv.subscribeErr = none ∧ exEnv.publishErr = none ∧
    exCodec.marshal 5 = Except.ok [5] ∧ exEnv.delivered = none ∧
    Read exSessionZero exEnv exCodec 5 = none := by
  refine ⟨rfl, rfl, rfl, rfl, rfl, ?_⟩
  decide

/-- C2: when the subscription, the encoding and the publish succeed and a payload
`b` that decodes without error is received, each of the four operations returns
the decoded payload with an empty error list; so a reply `encode x` of a codec
that round-trips yields the payload of `x`. -/
theorem reply_decoded_roundtrip {Q P : Type} [Inhabited P] (self : StatefulORM)
    (env : CallEnv) (codec : Codec Q P) (request : Q) (encoded : Bytes)
    (hsub : env.subscribeErr = none) (henc : codec.marshal request = Except.ok encoded)
    (hpub : env.publishErr = none) :
    (∀ (b : Bytes) (x : DBResponse P), env.delivered = some b →
      codec.unmarshal b DBResponse.zero = (x, none) →
      returned (Create self env codec request) = some { payload := x.payload, Errors := [] } ∧
      returned (Read self env codec request) = some { payload := x.payload, Errors := [] } ∧
      returned (Update self env codec request) = some { payload := x.payload, Errors := [] } ∧
      returned (Delete self env codec request) = some { payload := x.payload, Errors := [] }) ∧
    (∀ (encode : DBResponse P → Bytes) (x : DBResponse P),
      (∀ y, codec.unmarshal (encode y) DBResponse.zero = (y, none)) →
      env.delivered = some (encode x) →
      returned (Create self env codec request) = some { payload := x.payload, Errors := [] } ∧
      returned (Read self env codec request) = some { payload := x.payload, Errors := [] } ∧
      returned (Update self env codec request) = some { payload := x.payload, Errors := [] } ∧
      returned (Delete self env codec request) = some { payload := x.payload, Errors := [] }) := by
  have key : ∀ (b : Bytes) (x : DBResponse P), env.delivered = some b →
      codec.unmarshal b DBResponse.zero = (x, none) →
      returned (Create self env codec request) = some { payload := x.payload, Errors := [] } ∧
      returned (Read self env codec request) = some { payload := x.payload, Errors := [] } ∧
      returned (Update self env codec request) = some { payload := x.payload, Errors := [] } ∧
      returned (Delete self env codec request) = some { payload := x.payload, Errors := [] } := by
    intro b x hb hx
    simp [returned, Create, Read, Update, Delete, runOp, mqttExec, selectWait, deferredReturn,
      hsub, henc, hpub, hb, hx]
  exact ⟨key, fun encode x hrt hb => key (encode x) x hb (hrt x)⟩

/-- A `Create` on the two-second session that receives the reply `[42]`. -/
theorem reply_decoded_roundtrip_witness :
    exEnvReply.delivered = some [42] ∧
    exCodec.unmarshal [42] DBResponse.zero = ({ payload := 42, Errors := [] }, none) ∧
    returned (Create exSession exEnvReply exCodec 5) = some { payload := 42, Errors := [] } :=
  ⟨rfl, rfl,
    ((reply_decoded_roundtrip exSession exEnvReply exCodec 5 [5] rfl rfl rfl).1 [42]
      { payload := 42, Errors := [] } rfl rfl).1⟩

/-- C3 (amended): a call whose request fails to encode returns without a publish
and without entering the wait; its result is the single error
`WimarkErrorCodeJson` when the exact subscription succeeded, and the single error
`WimarkErrorCodeMqtt` of the subscription when that failed. -/
theorem encode_failure_no_publish {Q P : Type} (self : StatefulORM) (env : CallEnv)
    (codec : Codec Q P) (op : Operation) (request : Q) (data_ptr : DBResponse P)
    (reqErr : String) (henc : codec.marshal request = Except.error reqErr) :
    ∃ r, mqttExec self env codec op request data_ptr = some r ∧
      (∀ t ok, Event.publish t ok ∉ r.trace) ∧ Event.wait ∉ r.trace ∧
      (env.subscribeErr = none →
        r.errors = [{ Type_ := WimarkErrorCode.WimarkErrorCodeJson, Description := reqErr }]) ∧
      (∀ err, env.subscribeErr = some err →
        r.errors = [{ Type_ := WimarkErrorCode.WimarkErrorCodeMqtt, Description := err }]) := by
  cases hs : env.subscribeErr with
  | some e => simp [mqttExec, hs]
  | none => simp [mqttExec, hs, henc, deferredReturn]

/-- A call with the request `0`, which does not encode. -/
theorem encode_failure_no_publish_witness :
    exCodec.marshal 0 = Except.error "unsupported value" ∧
    ∃ r, mqttExec exSession exEnv exCodec Operation.OperationCreate 0 DBResponse.zero = some r ∧
      (∀ t ok, Event.publish t ok ∉ r.trace) ∧ Event.wait ∉ r.trace ∧
      (exEnv.subscribeErr = none →
        r.errors = [{ Type_ := WimarkErrorCode.WimarkErrorCodeJson,
                      Description := "unsupported value" }]) ∧
      (∀ err, exEnv.subscribeErr = some err →
        r.errors = [{ Type_ := WimarkErrorCode.WimarkErrorCodeMqtt, Description := err }]) :=
  ⟨rfl, encode_failure_no_publish exSession exEnv exCodec Operation.OperationCreate 0
    DBResponse.zero "unsupported value" rfl⟩

/-- C3 (counterexample): the request `0` fails to encode, the exact subscription
fails, and the call returns the single error `WimarkErrorCodeMqtt`, not
`WimarkErrorCodeJson`. -/
theorem encode_failure_after_failed_subscribe :
    exCodec.marshal 0 = Except.error "unsupported value" ∧
    (mqttExec exSession exEnvSubFail exCodec Operation.OperationCreate 0
        DBResponse.zero).map (fun r => r.errors) =
      some [{ Type_ := WimarkErrorCode.WimarkErrorCodeMqtt, Description := "not connected" }] := by
  refine ⟨rfl, ?_⟩
  decide

/-- C4: when the exact subscription fails with `e`, or it succeeds, the request
encodes and the publish fails with `e`, the call returns the single error
`WimarkErrorCodeMqtt` with description `e`, and never entered the wait. -/
theorem transport_failure_single_mqtt_error {Q P : Type} (self : StatefulORM) (env : CallEnv)
    (codec : Codec Q P) (op : Operation) (request : Q) (data_ptr : DBResponse P) (e : String)
    (h : env.subscribeErr = some e ∨
      (env.subscribeErr = none ∧ (∃ b, codec.marshal request = Except.ok b) ∧
        env.publishErr = some e)) :
    ∃ r, mqttExec self env codec op request data_ptr = some r ∧
      r.errors = [{ Type_ := WimarkErrorCode.WimarkErrorCodeMqtt, Description := e }] ∧
      Event.wait ∉ r.trace ∧ Event.tick ∉ r.trace ∧ (∀ b, Event.received b ∉ r.trace) := by
  rcases h with hs | ⟨hs, ⟨b, hm⟩, hp⟩
  · simp [mqttExec, hs]
  · simp [mqttExec, hs, hm, hp, deferredReturn]

/-- A call whose publish the broker rejects. -/
theorem transport_failure_single_mqtt_error_witness :
    (exEnvPubFail.subscribeErr = none ∧ (∃ b, exCodec.marshal 5 = Except.ok b) ∧
      exEnvPubFail.publishErr = some "broker rejected") ∧
    ∃ r, mqttExec exSession exEnvPubFail exCodec Operation.OperationUpdate 5
        DBResponse.zero = some r ∧
      r.errors = [{ Type_ := WimarkErrorCode.WimarkErrorCodeMqtt,
                    Description := "broker rejected" }] ∧
      Event.wait ∉ r.trace ∧ Event.tick ∉ r.trace ∧ (∀ b, Event.received b ∉ r.trace) :=
  ⟨⟨rfl, ⟨[5], rfl⟩, rfl⟩,
    transport_failure_single_mqtt_error exSession exEnvPubFail exCodec Operation.OperationUpdate 5
      DBResponse.zero "broker rejected" (Or.inr ⟨rfl, ⟨[5], rfl⟩, rfl⟩)⟩

/-! ## The wildcard handler and the correlation table -/

theorem find_key_filter_ne (items : List (String × Item)) (k k' : String) (h : k ≠ k') :
    (items.filter (fun p => p.1 != k')).find? (fun p => p.1 == k) =
      items.find? (fun p => p.1 == k) := by
  induction items with
  | nil => rfl
  | cons p rest ih =>
    by_cases hk' : p.1 = k'
    · have hne : ¬ p.1 = k := fun h' => h (h'.symm.trans hk')
      have e1 : (p.1 != k') = false := by simp [hk']
      have e2 : (p.1 == k) = false := by simp [hne]
      simp only [List.filter_cons, List.find?_cons, e1, e2]
      simpa using ih
    · have e1 : (p.1 != k') = true := by simp [hk']
      by_cases hk : p.1 = k
      · have e2 : (p.1 == k) = true := by simp [hk]
        simp only [List.filter_cons, List.find?_cons, e1, e2, if_true]
      · have e2 : (p.1 == k) = false := by simp [hk]
        simp only [List.filter_cons, List.find?_cons, e1, e2, ih, if_true]

theorem Get_Set_ne (c : Cache) (now now' : Int) (k k' : String) (x : Callback) (d : Duration)
    (h : k ≠ k') : (c.Set now' k' x d).Get now k = c.Get now k := by
  have hne : ¬ k' = k := fun h' => h h'.symm
  simp [Cache.Get, Cache.Set, List.find?_cons, hne, find_key_filter_ne c.items k k' h]

theorem Get_Set_same (c : Cache) (now now' : Int) (k : String) (x : Callback) (d : Duration) :
    (c.Set now' k x d).Get now k = some x ∨ (c.Set now' k x d).Get now k = none := by
  simp only [Cache.Get, Cache.Set, List.find?_cons, beq_self_eq_true]
  split <;> simp

/-- C7: the wildcard handler, on a message whose topic parses to the request id
`r` while the table has a callback for `r`, invokes exactly that callback, once,
with the payload of the message; on a message whose topic does not parse, or
whose request id has no callback in the table, it invokes nothing.  So with two
calls registered under distinct request ids on distinct channels, a reply to the
first is never written to the channel of the second. -/
theorem wildcard_handler_routes_by_request_id
    (ParseResponseTopic : String → Option ResponseTopic) (self : StatefulORM) (now : Int)
    (msg : Message) :
    (∀ t cb, ParseResponseTopic msg.Topic = some t →
      self.cache.Get now t.RequestID = some cb →
      wildcardHandler ParseResponseTopic self now msg = [(cb, msg.Payload)]) ∧
    (ParseResponseTopic msg.Topic = none →
      wildcardHandler ParseResponseTopic self now msg = []) ∧
    (∀ t, ParseResponseTopic msg.Topic = some t → self.cache.Get now t.RequestID = none →
      wildcardHandler ParseResponseTopic self now msg = []) ∧
    (∀ (r1 r2 : String) (c1 c2 : ChanId) (now1 now2 : Int) (t : ResponseTopic),
      r1 ≠ r2 → c1 ≠ c2 → ParseResponseTopic msg.Topic = some t → t.RequestID = r1 →
      ∀ p ∈ wildcardHandler ParseResponseTopic
          (registered (registered self now1 r1 c1) now2 r2 c2) now msg,
        p = ({ chan := c1 }, msg.Payload) ∧ (p.1.call p.2).chan ≠ c2) := by
  refine ⟨?_, ?_, ?_, ?_⟩
  · intro t cb ht hcb
    simp [wildcardHandler, ht, hcb]
  · intro ht
    simp [wildcardHandler, ht]
  · intro t ht hcb
    simp [wildcardHandler, ht, hcb]
  · intro r1 r2 c1 c2 now1 now2 t hr hc ht htr p hp
    have hget : (registered (registered self now1 r1 c1) now2 r2 c2).cache.Get now r1 =
        (registered self now1 r1 c1).cache.Get now r1 := by
      simp only [registered]
      exact Get_Set_ne _ now now2 r1 r2 _ _ hr
    simp only [wildcardHandler, ht, htr, hget] at hp
    rcases Get_Set_same self.cache now now1 r1 { chan := c1 } self.timeout with h | h
    · simp only [registered] at hp
      rw [h] at hp
      simp at hp
      subst hp
      exact ⟨rfl, by simpa [Callback.call] using hc⟩
    · simp only [registered] at hp
      rw [h] at hp
      simp at hp

theorem entries_filter_le (items : List (String × Item)) (q : String × Item → Bool)
    (k : String) :
    ((items.filter q).filter (fun p => p.1 == k)).length ≤
      (items.filter (fun p => p.1 == k)).length := by
  have hcomm : (items.filter q).filter (fun p => p.1 == k) =
      (items.filter (fun p => p.1 == k)).filter q := by
    rw [List.filter_filter, List.filter_filter]
    congr 1
    funext a
    exact Bool.and_comm _ _
  rw [hcomm]
  exact List.length_filter_le _ _

theorem entries_filter_self (items : List (String × Item)) (k : String) :
    (items.filter (fun p => p.1 != k)).filter (fun p => p.1 == k) = [] := by
  rw [List.filter_filter, List.filter_eq_nil_iff]
  intro p _
  by_cases h : p.1 = k <;> simp [h]

theorem entries_Set_le (c : Cache) (now : Int) (k : String) (x : Callback) (d : Duration)
    (r : String) (h : c.entries r ≤ 1) : (c.Set now k x d).entries r ≤ 1 := by
  simp only [Cache.entries, Cache.Set] at *
  by_cases hk : k = r
  · subst hk
    simp [List.filter_cons, entries_filter_self]
  · have e1 : (k == r) = false := by simp [hk]
    simp only [List.filter_cons, e1]
    exact le_trans (entries_filter_le c.items _ r) h

theorem entries_janitorRun_le (c : Cache) (now : Int) (r : String) (h : c.entries r ≤ 1) :
    (c.janitorRun now).entries r ≤ 1 := by
  simp only [Cache.entries, Cache.janitorRun, Cache.DeleteExpired] at *
  split
  · exact le_trans (entries_filter_le c.items _ r) h
  · exact h

theorem entries_step_le (parse : String → Option ResponseTopic) (s : Sys) (st : TableStep)
    (h : ∀ r, s.orm.cache.entries r ≤ 1) : ∀ r, (s.step parse st).orm.cache.entries r ≤ 1 := by
  intro r
  cases st with
  | register reqid data_chan => exact entries_Set_le _ _ _ _ _ r (h r)
  | deliver msg => exact h r
  | clock dt => exact h r
  | sweep => exact entries_janitorRun_le _ _ r (h r)

theorem entries_run_le (parse : String → Option ResponseTopic) (steps : List TableStep) :
    ∀ s : Sys, (∀ r, s.orm.cache.entries r ≤ 1) →
      ∀ r, (s.run parse steps).orm.cache.entries r ≤ 1 := by
  induction steps with
  | nil => intro s h; exact h
  | cons st rest ih =>
    intro s h
    exact ih (s.step parse st) (entries_step_le parse s st h)

theorem timeout_step (parse : String → Option ResponseTopic) (s : Sys) (st : TableStep) :
    (s.step parse st).orm.timeout = s.orm.timeout := by
  cases st <;> rfl

theorem timeout_run (parse : String → Option ResponseTopic) (steps : List TableStep) :
    ∀ s : Sys, (s.run parse steps).orm.timeout = s.orm.timeout := by
  induction steps with
  | nil => intro s; rfl
  | cons st rest ih =>
    intro s
    exact (ih (s.step parse st)).trans (timeout_step parse s st)

theorem boundUntil_register (s : Sys) (r : String) (data_chan : ChanId) (e : Int)
    (he : (if (if s.orm.timeout = 0 then s.orm.cache.defaultExpiration else s.orm.timeout) > 0
      then wrapInt64 (s.now + (if s.orm.timeout = 0 then s.orm.cache.defaultExpiration
        else s.orm.timeout)) else 0) = e)
    (parse : String → Option ResponseTopic) :
    BoundUntil r { chan := data_chan } e (s.step parse (TableStep.register r data_chan)) := by
  constructor
  · intro p hp hr
    simp only [Sys.step, registered, Cache.Set, List.mem_cons, List.mem_filter] at hp
    rcases hp with hp | ⟨_, hp⟩
    · subst hp
      simp [he]
    · simp [hr] at hp
  · left
    exact ⟨_, List.mem_cons_self _ _, rfl⟩

theorem boundUntil_step (parse : String → Option ResponseTopic) (r : String) (x : Callback)
    (e : Int) (s : Sys) (st : TableStep) (hst : st.registers r = false)
    (h : BoundUntil r x e s) : BoundUntil r x e (s.step parse st) := by
  obtain ⟨h1, h2⟩ := h
  cases st with
  | register reqid data_chan =>
    have hne : reqid ≠ r := by simpa [TableStep.registers] using hst
    constructor
    · intro p hp hr
      simp only [Sys.step, registered, Cache.Set, List.mem_cons, List.mem_filter] at hp
      rcases hp with hp | ⟨hp, _⟩
      · subst hp
        exact absurd hr hne
      · exact h1 p hp hr
    · rcases h2 with ⟨p, hp, hr⟩ | h2
      · left
        refine ⟨p, ?_, hr⟩
        simp only [Sys.step, registered, Cache.Set, List.mem_cons, List.mem_filter]
        right
        refine ⟨hp, ?_⟩
        have : p.1 ≠ reqid := by rw [hr]; exact fun h' => hne h'.symm
        simp [this]
      · right
        exact h2
  | deliver msg => exact ⟨h1, h2⟩
  | clock dt =>
    refine ⟨h1, ?_⟩
    rcases h2 with h2 | h2
    · left; exact h2
    · right
      simp only [Sys.step]
      omega
  | sweep =>
    simp only [BoundUntil, Sys.step, Cache.janitorRun, Cache.DeleteExpired]
    split
    · constructor
      · intro p hp hr
        exact h1 p (List.mem_filter.mp hp).1 hr
      · rcases h2 with ⟨p, hp, hr⟩ | h2
        · by_cases hexp : p.2.Expired s.now = true
          · right
            rw [h1 p hp hr] at hexp
            simp only [Item.Expired, Bool.and_eq_true, decide_eq_true_eq] at hexp
            exact ⟨hexp.1, hexp.2⟩
          · left
            exact ⟨p, List.mem_filter.mpr ⟨hp, by simpa using hexp⟩, hr⟩
        · right; exact h2
    · exact ⟨h1, h2⟩

theorem boundUntil_run (parse : String → Option ResponseTopic) (r : String) (x : Callback)
    (e : Int) (post : List TableStep) :
    ∀ s : Sys, (∀ st ∈ post, st.registers r = false) → BoundUntil r x e s →
      BoundUntil r x e (s.run parse post) := by
  induction post with
  | nil => intro s _ h; exact h
  | cons st rest ih =>
    intro s hpost h
    exact ih (s.step parse st) (fun st' hst' => hpost st' (List.mem_cons_of_mem _ hst'))
      (boundUntil_step parse r x e s st (hpost st (List.mem_cons_self _ _)) h)

theorem Get_of_boundUntil_expired (r : String) (x : Callback) (e : Int) (s : Sys)
    (h : BoundUntil r x e s) (he : 0 < e) (hnow : e < s.now) :
    s.orm.cache.Get s.now r = none := by
  simp only [Cache.Get]
  cases hf : s.orm.cache.items.find? (fun p => p.1 == r) with
  | none => rfl
  | some p =>
    have hp := List.mem_of_find?_eq_some hf
    have hr : p.1 = r := by simpa using List.find?_some hf
    have := h.1 p hp hr
    simp [this, Item.Expired, he, hnow]

theorem Get_of_boundUntil_live (r : String) (x : Callback) (e : Int) (s : Sys)
    (h : BoundUntil r x e s) (hnow : e ≤ 0 ∨ s.now ≤ e) :
    s.orm.cache.Get s.now r = some x := by
  simp only [Cache.Get]
  cases hf : s.orm.cache.items.find? (fun p => p.1 == r) with
  | none =>
    rcases h.2 with ⟨p, hp, hr⟩ | h2
    · rw [List.find?_eq_none] at hf
      exact absurd (by simpa using hr) (hf p hp)
    · omega
  | some p =>
    have hp := List.mem_of_find?_eq_some hf
    have hr : p.1 = r := by simpa using List.find?_some hf
    have := h.1 p hp hr
    have hle : ¬ (0 < e ∧ e < s.now) := by omega
    simp only [this, Item.Expired, gt_iff_lt, Bool.and_eq_true, decide_eq_true_eq, hle,
      if_false]

theorem wrapInt64_of_range (x : Int) (h0 : 0 ≤ x) (h1 : x < 2 ^ 63) : wrapInt64 x = x := by
  unfold wrapInt64
  have : (x + 2 ^ 63) % 2 ^ 64 = x + 2 ^ 63 := Int.emod_eq_of_lt (by omega) (by omega)
  omega

theorem wrapInt64_of_overflow (x : Int) (h0 : 2 ^ 63 ≤ x) (h1 : x < 2 ^ 64) :
    wrapInt64 x < 0 := by
  unfold wrapInt64
  omega

theorem now_step_le (parse : String → Option ResponseTopic) (s : Sys) (st : TableStep) :
    s.now ≤ (s.step parse st).now := by
  cases st <;> simp [Sys.step]

theorem now_run_le (parse : String → Option ResponseTopic) (steps : List TableStep) :
    ∀ s : Sys, s.now ≤ (s.run parse steps).now := by
  induction steps with
  | nil => intro s; exact le_refl _
  | cons st rest ih =>
    intro s
    exact le_trans (now_step_le parse s st) (ih (s.step parse st))

/-- C6 (amended): over every sequence of register, deliver, clock and janitor
steps on a session connected with a positive timeout, the table holds at most one
entry per request id; an entry registered for `r` is still found, with its
callback, by every lookup up to its deadline, deliveries that invoked it
included; and once the deadline has passed a lookup of `r` misses and the wildcard
handler invokes nothing for `r`. -/
theorem table_entry_unique_until_deadline (parse : String → Option ResponseTopic)
    (self0 : StatefulORM) (mqtt_info : MQTTData) (request_timeout : Int) (s0 s1 s2 : Sys)
    (pre post : List TableStep) (r : String) (data_chan : ChanId)
    (hconn : s0.orm = (Connect self0 none none mqtt_info request_timeout).1)
    (hpos : 0 < request_timeout) (hint : request_timeout < 2 ^ 63) (hnow0 : 0 ≤ s0.now)
    (hs1 : s1 = s0.run parse pre)
    (hs2 : s2 = (s1.step parse (TableStep.register r data_chan)).run parse post)
    (hpost : ∀ st ∈ post, st.registers r = false) (hclock : s2.now < 2 ^ 63) :
    (∀ steps k, (s0.run parse steps).orm.cache.entries k ≤ 1) ∧
    (s2.now ≤ s1.now + request_timeout →
      s2.orm.cache.Get s2.now r = some { chan := data_chan }) ∧
    (s1.now + request_timeout < s2.now →
      s2.orm.cache.Get s2.now r = none ∧
      ∀ msg t, parse msg.Topic = some t → t.RequestID = r →
        wildcardHandler parse s2.orm s2.now msg = []) := by
  subst hs1
  subst hs2
  have hempty : ∀ k, s0.orm.cache.entries k ≤ 1 := by
    intro k
    rw [hconn]
    simp [Connect, Cache.New, Cache.entries]
  have htmo : (s0.run parse pre).orm.timeout = request_timeout := by
    rw [timeout_run, hconn]
    rfl
  have hne : ¬ request_timeout = 0 := by omega
  have hs1 : 0 ≤ (s0.run parse pre).now := le_trans hnow0 (now_run_le parse pre s0)
  have hb := boundUntil_run parse r { chan := data_chan }
    (wrapInt64 ((s0.run parse pre).now + request_timeout)) post
    ((s0.run parse pre).step parse (TableStep.register r data_chan)) hpost
    (boundUntil_register (s0.run parse pre) r data_chan _ (by simp [htmo, hne, hpos]) parse)
  refine ⟨fun steps k => entries_run_le parse steps s0 hempty k, ?_, ?_⟩
  · intro hle
    apply Get_of_boundUntil_live r _ _ _ hb
    by_cases hov : (s0.run parse pre).now + request_timeout < 2 ^ 63
    · right
      rw [wrapInt64_of_range _ (by omega) hov]
      exact hle
    · left
      have h1 : (s0.run parse pre).now ≤
          (((s0.run parse pre).step parse (TableStep.register r data_chan)).run parse post).now :=
        now_run_le parse post ((s0.run parse pre).step parse (TableStep.register r data_chan))
      have h2 : (s0.run parse pre).now < 2 ^ 63 := lt_of_le_of_lt h1 hclock
      exact le_of_lt (wrapInt64_of_overflow _ (by omega) (by omega))
  · intro hlt
    have hrange : (s0.run parse pre).now + request_timeout < 2 ^ 63 := by omega
    have he := wrapInt64_of_range _ (by omega) hrange
    have hget := Get_of_boundUntil_expired r _ _ _ hb (by rw [he]; omega) (by rw [he]; exact hlt)
    refine ⟨hget, ?_⟩
    intro msg t ht htr
    simp [wildcardHandler, ht, htr, hget]

/-- The entry of `r1` is invoked by a delivery and still found 500 ns later. -/
theorem table_entry_unique_until_deadline_witness :
    ((exSys.step exParse (TableStep.register "r1" 7)).run exParse
        [TableStep.deliver exReply, TableStep.clock 500]).calls = [({ chan := 7 }, [42])] ∧
    ((exSys.step exParse (TableStep.register "r1" 7)).run exParse
        [TableStep.deliver exReply, TableStep.clock 500]).orm.cache.Get 1500 "r1" =
      some { chan := 7 } :=
  ⟨by decide,
    (table_entry_unique_until_deadline exParse exFresh exInfo 2000000000 exSys exSys
      ((exSys.step exParse (TableStep.register "r1" 7)).run exParse
        [TableStep.deliver exReply, TableStep.clock 500]) []
      [TableStep.deliver exReply, TableStep.clock 500] "r1" 7 rfl (by decide) (by decide)
      (by decide) rfl rfl (by decide) (by decide)).2.1 (by decide)⟩

/-- C6 (counterexample): after the entry of `r1` was registered and a delivery
invoked its callback, the entry is still in the table and a lookup still finds
it; and on a session with the timeout `0` the entry is still found long after the
instant of registration. -/
theorem table_entry_survives_invocation :
    ((exSys.step exParse (TableStep.register "r1" 7)).run exParse
        [TableStep.deliver exReply]).calls = [({ chan := 7 }, [42])] ∧
    ((exSys.step exParse (TableStep.register "r1" 7)).run exParse
        [TableStep.deliver exReply]).orm.cache.entries "r1" = 1 ∧
    ((exSys.step exParse (TableStep.register "r1" 7)).run exParse
        [TableStep.deliver exReply]).orm.cache.Get 1000 "r1" = some { chan := 7 } ∧
    ((exSysZero.step exParse (TableStep.register "r1" 7)).run exParse
        [TableStep.clock 3600000000000, TableStep.sweep]).now = 3600000001000 ∧
    ((exSysZero.step exParse (TableStep.register "r1" 7)).run exParse
        [TableStep.clock 3600000000000, TableStep.sweep]).orm.cache.Get 3600000001000 "r1" =
      some { chan := 7 } := by
  decide

/-- With `r1` and `r2` registered, the reply to `r1` invokes the callback of `r1` only. -/
theorem wildcard_handler_routes_by_request_id_witness :
    exParse exReply.Topic = some (reqTopic exSession "r1" Operation.OperationRead).ToResponse ∧
    (registered (registered exSession 1000 "r1" 7) 1000 "r2" 8).cache.Get 1500 "r1" =
      some { chan := 7 } ∧
    wildcardHandler exParse (registered (registered exSession 1000 "r1" 7) 1000 "r2" 8) 1500
      exReply = [({ chan := 7 }, [42])] :=
  ⟨by decide, by decide,
    (wildcard_handler_routes_by_request_id exParse
      (registered (registered exSession 1000 "r1" 7) 1000 "r2" 8) 1500 exReply).1
      (reqTopic exSession "r1" Operation.OperationRead).ToResponse { chan := 7 }
      (by decide) (by decide)⟩

/-! ## The two delivery paths -/

/-- While a call waits on a connected session with its entry live, a reply on its
response topic is handed to both handlers, and each attempts a write to the
channel of the call. -/
theorem dispatch_awaiting_writes_twice (parse : String → Option ResponseTopic)
    (self0 : StatefulORM) (mqtt_info : MQTTData) (request_timeout : Int) (env : CallEnv)
    (op : Operation) (now : Int) (msg : Message)
    (hparse : parse msg.Topic = some
      (reqTopic (Connect self0 none none mqtt_info request_timeout).1 env.reqid op).ToResponse)
    (hid : env.reqid ≠ MQTT_ANY_WILDCARD)
    (hlive : (awaiting (Connect self0 none none mqtt_info request_timeout).1 env op).cache.Get
      now env.reqid = some { chan := env.data_chan }) :
    dispatch parse (awaiting (Connect self0 none none mqtt_info request_timeout).1 env op) now
        msg =
      [{ chan := env.data_chan, data := msg.Payload },
       { chan := env.data_chan, data := msg.Payload }] := by
  have hid' : ¬ MQTT_ANY_WILDCARD = env.reqid := fun h => hid h.symm
  have hw : wildcardHandler parse
      (awaiting (Connect self0 none none mqtt_info request_timeout).1 env op) now msg =
      [({ chan := env.data_chan }, msg.Payload)] := by
    simp only [wildcardHandler, hparse]
    have : (reqTopic (Connect self0 none none mqtt_info request_timeout).1 env.reqid
        op).ToResponse.RequestID = env.reqid := rfl
    rw [this, hlive]
  have hsubs : (awaiting (Connect self0 none none mqtt_info request_timeout).1 env
      op).broker.subs =
      [{ topic := wildcardTopic mqtt_info, handler := Handler.wildcard },
       { topic := (reqTopic (Connect self0 none none mqtt_info request_timeout).1 env.reqid
           op).ToResponse
         handler := Handler.forward env.data_chan }] := by
    simp [awaiting, registered, Connect, Broker.subscribe, reqTopic, RequestTopic.ToResponse,
      wildcardTopic, hid']
  have hm1 : topicMatches (wildcardTopic mqtt_info)
      (reqTopic (Connect self0 none none mqtt_info request_timeout).1 env.reqid
        op).ToResponse = true := by
    simp [topicMatches, wildcardTopic, reqTopic, RequestTopic.ToResponse, Connect]
  have hm2 : topicMatches
      (reqTopic (Connect self0 none none mqtt_info request_timeout).1 env.reqid op).ToResponse
      (reqTopic (Connect self0 none none mqtt_info request_timeout).1 env.reqid
        op).ToResponse = true := by
    simp [topicMatches]
  simp only [dispatch, hparse, hsubs, List.filter_cons, hm1, hm2, if_true, List.filter_nil,
    List.flatMap_cons, List.flatMap_nil, Handler.run, hw, List.map_cons, List.map_nil,
    Callback.call, List.append_nil, List.singleton_append]

/-- C10 (failing input): while the call `r1` waits on `exSession`, the single
reply `exReply` on its response topic is written to the channel of the call by
both delivery paths; the channel has capacity zero, so after the one read of the
caller the second writer is left blocked. -/
theorem reply_written_by_both_paths :
    dispatch exParse (awaiting exSession exEnv Operation.OperationRead) 1500 exReply =
      [{ chan := 7, data := [42] }, { chan := 7, data := [42] }] ∧
    makeChan.cap = 0 ∧
    (makeChan.sendAll
        (dispatch exParse (awaiting exSession exEnv Operation.OperationRead) 1500
          exReply)).recv =
      some ([42], { cap := 0, buf := [], blocked := [[42]] }) := by
  decide

end Orm
